import Mathlib

/-!
A verification development for a small relational data model (games,
reviews, users) defined behind an ORM, together with its serialization
exclusion rules, generic create/update operations, an association-proxy
derived view, and a seeding routine.

The data model is embedded shallowly: each ORM-mapped class becomes a
structure of its columns (`db.Integer` becomes `Int`/`Nat`, nullable
columns become `Option`, `db.DateTime` becomes an abstract `Nat` tick),
the database becomes a `Store` of row lists, and the declarative
relationships (`db.relationship`, foreign keys) become computed lookups
over the store.
-/

namespace GameStore

/-- A row of the `games` table (class `Game` in `server/models.py`).
Columns: integer primary key `id`; `title` (unique), `genre`, `platform`
strings; integer `price`; `created_at` with a server-side default of the
current time; `updated_at` set only `onupdate`.  All non-key columns are
nullable (no `nullable=False` appears in the source), hence `Option`. -/
structure Game where
  id : Nat
  title : Option String
  genre : Option String
  platform : Option String
  price : Option Int
  created_at : Option Nat
  updated_at : Option Nat
deriving DecidableEq, Repr

/-- A row of the `users` table (class `User`): `id`, `name`,
`created_at`, `updated_at`. -/
structure User where
  id : Nat
  name : Option String
  created_at : Option Nat
  updated_at : Option Nat
deriving DecidableEq, Repr

/-- A row of the `reviews` table (class `Review`): `id`, `score`,
`comment`, timestamps, and the two foreign keys `game_id` (referencing
`games.id`) and `user_id` (referencing `users.id`).  Neither foreign-key
column is declared `nullable=False`, so both are `Option Nat`. -/
structure Review where
  id : Nat
  score : Option Int
  comment : Option String
  created_at : Option Nat
  updated_at : Option Nat
  game_id : Option Nat
  user_id : Option Nat
deriving DecidableEq, Repr

/-- The database state: the three tables. -/
structure Store where
  games : List Game
  users : List User
  reviews : List Review
deriving DecidableEq, Repr

/-- The `Game.reviews` relationship (`db.relationship("Review",
back_populates="game")`): the reviews whose `game_id` is this game's id. -/
def Game.reviews (st : Store) (g : Game) : List Review :=
  st.reviews.filter (fun r => decide (r.game_id = some g.id))

/-- The `User.reviews` relationship: the reviews whose `user_id` is this
user's id. -/
def User.reviews (st : Store) (u : User) : List Review :=
  st.reviews.filter (fun r => decide (r.user_id = some u.id))

/-- The `Review.game` relationship: the game referenced by `game_id`,
if any. -/
def Review.game (st : Store) (r : Review) : Option Game :=
  r.game_id.bind (fun gid => st.games.find? (fun g => decide (g.id = gid)))

/-- The `Review.user` relationship: the user referenced by `user_id`,
if any. -/
def Review.user (st : Store) (r : Review) : Option User :=
  r.user_id.bind (fun uid => st.users.find? (fun u => decide (u.id = uid)))

/-- The `Game.users` association proxy:
`users = association_proxy("reviews", "user", ...)`.
Reading it projects `user` across this game's reviews, one entry per
review, in order, with duplicates preserved (the proxy is a list-like
view, not a set). -/
def Game.users (st : Store) (g : Game) : List (Option User) :=
  (Game.reviews st g).map (fun r => Review.user st r)

/-! Serialization.

`SerializerMixin` turns a row into a nested dictionary holding every
column plus every relationship, except that relationship traversals whose
path matches one of the class's `serialize_rules` exclusions are omitted,
and a traversal leading back to an object already on the current
serialization path is cut (the mixin's cycle prevention).  We embed the
output as a JSON-like tree and drive a generic serializer with the
literal rule tuples from the source. -/

/-- A JSON-like serialized value. -/
inductive JVal where
  | null : JVal
  | int (n : Int) : JVal
  | str (s : String) : JVal
  | obj (fields : List (String × JVal)) : JVal
  | arr (elems : List JVal) : JVal

/-- Look up a key in a serialized object; `none` on non-objects. -/
def JVal.lookup (v : JVal) (k : String) : Option JVal :=
  match v with
  | .obj fields => (fields.find? (fun f => decide (f.fst = k))).map Prod.snd
  | _ => none

/-- Whether a serialized object carries a given key. -/
def JVal.hasKey (v : JVal) (k : String) : Bool :=
  (v.lookup k).isSome

/-- Serialize a nullable integer column. -/
def jInt : Option Int → JVal
  | none => .null
  | some n => .int n

/-- Serialize a nullable string column. -/
def jStr : Option String → JVal
  | none => .null
  | some s => .str s

/-- Serialize a nullable integer-valued column (timestamps, foreign keys). -/
def jNat : Option Nat → JVal
  | none => .null
  | some t => .int t

/-- The column part of a serialized `Game`. -/
def Game.fieldsJson (g : Game) : List (String × JVal) :=
  [("id", .int g.id), ("title", jStr g.title), ("genre", jStr g.genre),
   ("platform", jStr g.platform), ("price", jInt g.price),
   ("created_at", jNat g.created_at), ("updated_at", jNat g.updated_at)]

/-- The column part of a serialized `User`. -/
def User.fieldsJson (u : User) : List (String × JVal) :=
  [("id", .int u.id), ("name", jStr u.name),
   ("created_at", jNat u.created_at), ("updated_at", jNat u.updated_at)]

/-- The column part of a serialized `Review`. -/
def Review.fieldsJson (r : Review) : List (String × JVal) :=
  [("id", .int r.id), ("score", jInt r.score), ("comment", jStr r.comment),
   ("created_at", jNat r.created_at), ("updated_at", jNat r.updated_at),
   ("game_id", jNat r.game_id), ("user_id", jNat r.user_id)]

/-- `serialize_rules = ("-reviews.game",)` on `Game`: when serializing a
game, omit the `game` back-reference inside each nested review. -/
def Game.serialize_rules : List (List String) := [["reviews", "game"]]

/-- `serialize_rules = ("-game.reviews", "-user.reviews",)` on `Review`:
when serializing a review, omit the `reviews` collections inside its
nested game and inside its nested user. -/
def Review.serialize_rules : List (List String) :=
  [["game", "reviews"], ["user", "reviews"]]

/-- `serialize_rules = ("-reviews.user",)` on `User`: when serializing a
user, omit the `user` back-reference inside each nested review. -/
def User.serialize_rules : List (List String) := [["reviews", "user"]]

/-- A reference to a row, used for the serializer's cycle prevention. -/
inductive ObjRef where
  | game (id : Nat)
  | review (id : Nat)
  | user (id : Nat)
deriving DecidableEq, Repr

/-- A row tagged with its table, the serializer's working type. -/
inductive Entity where
  | game (g : Game)
  | review (r : Review)
  | user (u : User)
deriving DecidableEq, Repr

/-- The reference of a tagged row. -/
def Entity.ref : Entity → ObjRef
  | .game g => .game g.id
  | .review r => .review r.id
  | .user u => .user u.id

/-- The rule-driven serializer.  `rules` is the root class's
`serialize_rules`, `path` the chain of relationship names walked so far,
`visited` the objects on the current path (cycle prevention), `fuel` a
bound on the recursion depth; any fuel at least the number of distinct
rows suffices, since `visited` grows at every recursive step.

Columns are always emitted.  A relationship named `rel` at path `p` is
omitted when `p ++ [rel]` is an excluded rule; a to-one relationship is
serialized to `null` when unset, and is cut when its target is already
on the path; elements of a to-many relationship already on the path are
dropped. -/
def serializeEntity (st : Store) (rules : List (List String)) :
    Nat → List String → List ObjRef → Entity → JVal
  | 0, _, _, _ => .null
  | fuel + 1, path, visited, .game g =>
      .obj (Game.fieldsJson g ++
        (if (path ++ ["reviews"]) ∈ rules then []
         else [("reviews", .arr (((Game.reviews st g).filter
                 (fun r => decide (ObjRef.review r.id ∉ visited))).map
                 (fun r => serializeEntity st rules fuel (path ++ ["reviews"])
                   (ObjRef.review r.id :: visited) (.review r))))]))
  | fuel + 1, path, visited, .user u =>
      .obj (User.fieldsJson u ++
        (if (path ++ ["reviews"]) ∈ rules then []
         else [("reviews", .arr (((User.reviews st u).filter
                 (fun r => decide (ObjRef.review r.id ∉ visited))).map
                 (fun r => serializeEntity st rules fuel (path ++ ["reviews"])
                   (ObjRef.review r.id :: visited) (.review r))))]))
  | fuel + 1, path, visited, .review r =>
      .obj (Review.fieldsJson r ++
        (if (path ++ ["game"]) ∈ rules then []
         else
           match Review.game st r with
           | none => [("game", .null)]
           | some g =>
               if ObjRef.game g.id ∈ visited then []
               else [("game", serializeEntity st rules fuel (path ++ ["game"])
                       (ObjRef.game g.id :: visited) (.game g))]) ++
        (if (path ++ ["user"]) ∈ rules then []
         else
           match Review.user st r with
           | none => [("user", .null)]
           | some u =>
               if ObjRef.user u.id ∈ visited then []
               else [("user", serializeEntity st rules fuel (path ++ ["user"])
                       (ObjRef.user u.id :: visited) (.user u))]))

/-- Total number of rows; one more than this bounds the serializer's
recursion depth. -/
def Store.size (st : Store) : Nat :=
  st.games.length + st.users.length + st.reviews.length

/-- `Game.to_dict`: serialize a game under `Game.serialize_rules`. -/
def Game.to_dict (st : Store) (g : Game) : JVal :=
  serializeEntity st Game.serialize_rules (st.size + 1) [] [ObjRef.game g.id]
    (.game g)

/-- `Review.to_dict`: serialize a review under `Review.serialize_rules`. -/
def Review.to_dict (st : Store) (r : Review) : JVal :=
  serializeEntity st Review.serialize_rules (st.size + 1) []
    [ObjRef.review r.id] (.review r)

/-- `User.to_dict`: serialize a user under `User.serialize_rules`. -/
def User.to_dict (st : Store) (u : User) : JVal :=
  serializeEntity st User.serialize_rules (st.size + 1) [] [ObjRef.user u.id]
    (.user u)

/-! Operations.

The generic `create`/`update` operations of §4.1 live in the ORM/storage
layer outside this repository; they are modelled from the spec, while the
constraint data they enforce — which columns are unique, which are
foreign keys, which are nullable, the `server_default`/`onupdate`
timestamp options — is taken verbatim from `server/models.py`. -/

/-- The error kinds of §7. -/
inductive DbError where
  | ConstraintViolation
  | NotFound
deriving DecidableEq, Repr

/-- The store after an operation: a failed operation rolls back, leaving
the original store. -/
def stateAfter (st : Store) : Except DbError Store → Store
  | .ok st' => st'
  | .error _ => st

/-- Whether a proposed title collides with a live game's title.  SQL
uniqueness (`title` is declared `unique=True`) constrains only non-null
values: a null title never collides. -/
def titleClash (st : Store) (t? : Option String) : Bool :=
  match t? with
  | none => false
  | some t => st.games.any (fun g => decide (g.title = some t))

/-- Whether a foreign-key value is admissible against a list of live
primary keys: a null value is accepted (neither FK column is declared
`nullable=False`); a present value must reference a live row. -/
def fkOk (ids : List Nat) (fk : Option Nat) : Bool :=
  match fk with
  | none => true
  | some i => ids.contains i

/-- Fields supplied when creating a `Game` (`id` and the timestamps are
system-assigned). -/
structure NewGame where
  title : Option String
  genre : Option String
  platform : Option String
  price : Option Int
deriving DecidableEq, Repr

/-- Modelled from the spec: `create(Game, fields)` (§4.1).  Fails with
`ConstraintViolation` on a duplicate non-null title; otherwise inserts
the row with `id := nid` (autoincrement key), `created_at := now`
(`server_default=db.func.now()`), and `updated_at` null (the column has
only `onupdate`, no default). -/
def createGame (st : Store) (now nid : Nat) (ng : NewGame) :
    Except DbError Store :=
  if titleClash st ng.title then .error .ConstraintViolation
  else .ok { st with games := st.games ++
    [⟨nid, ng.title, ng.genre, ng.platform, ng.price, some now, none⟩] }

/-- Modelled from the spec: `create(User, fields)` (§4.1).  No column of
`users` carries a constraint, so the insert always succeeds. -/
def createUser (st : Store) (now nid : Nat) (name : Option String) :
    Except DbError Store :=
  .ok { st with users := st.users ++ [⟨nid, name, some now, none⟩] }

/-- Modelled from the spec: `create(Review, fields)` (§4.1).  Each present
foreign key must reference a live row (the declared `ForeignKey`
constraints, enforced by the store); a null foreign key is accepted, since
neither column is declared `nullable=False`. -/
def createReview (st : Store) (now nid : Nat) (score : Option Int)
    (comment : Option String) (game_id user_id : Option Nat) :
    Except DbError Store :=
  if fkOk (st.games.map Game.id) game_id && fkOk (st.users.map User.id) user_id
  then .ok { st with reviews := st.reviews ++
    [⟨nid, score, comment, some now, none, game_id, user_id⟩] }
  else .error .ConstraintViolation

/-- A field-change set for `update(Game, fields)`: `none` leaves the
column untouched, `some v` writes `v` (possibly null). -/
structure GameUpdate where
  title : Option (Option String)
  genre : Option (Option String)
  platform : Option (Option String)
  price : Option (Option Int)
deriving DecidableEq, Repr

/-- Apply a field-change set to a game row: `created_at` has no
`onupdate` option and is untouched; `updated_at` has
`onupdate=db.func.now()` and is refreshed to the clock. -/
def applyGameUpdate (g : Game) (f : GameUpdate) (now : Nat) : Game :=
  { g with
    title := f.title.getD g.title
    genre := f.genre.getD g.genre
    platform := f.platform.getD g.platform
    price := f.price.getD g.price
    updated_at := some now }

/-- Modelled from the spec: `update(Game, fields)` (§4.1).  `NotFound`
when no live game has the id; `ConstraintViolation` when the written
title collides with another live game's title; otherwise rewrites the
row, refreshing `updated_at` and leaving `created_at` alone. -/
def updateGame (st : Store) (gid : Nat) (f : GameUpdate) (now : Nat) :
    Except DbError Store :=
  if st.games.any (fun g => decide (g.id = gid)) then
    if (match f.title with
        | some (some t) =>
            st.games.any (fun g =>
              decide (g.title = some t) && !(decide (g.id = gid)))
        | _ => false) then .error .ConstraintViolation
    else .ok { st with games := st.games.map (fun x =>
      if x.id = gid then applyGameUpdate x f now else x) }
  else .error .NotFound

/-- A field-change set for `update(User, fields)`. -/
structure UserUpdate where
  name : Option (Option String)
deriving DecidableEq, Repr

/-- Apply a field-change set to a user row, refreshing `updated_at`. -/
def applyUserUpdate (u : User) (f : UserUpdate) (now : Nat) : User :=
  { u with name := f.name.getD u.name, updated_at := some now }

/-- Modelled from the spec: `update(User, fields)` (§4.1). -/
def updateUser (st : Store) (uid : Nat) (f : UserUpdate) (now : Nat) :
    Except DbError Store :=
  if st.users.any (fun u => decide (u.id = uid)) then
    .ok { st with users := st.users.map (fun x =>
      if x.id = uid then applyUserUpdate x f now else x) }
  else .error .NotFound

/-- A field-change set for `update(Review, fields)`. -/
structure ReviewUpdate where
  score : Option (Option Int)
  comment : Option (Option String)
  game_id : Option (Option Nat)
  user_id : Option (Option Nat)
deriving DecidableEq, Repr

/-- Apply a field-change set to a review row, refreshing `updated_at`. -/
def applyReviewUpdate (r : Review) (f : ReviewUpdate) (now : Nat) : Review :=
  { r with
    score := f.score.getD r.score
    comment := f.comment.getD r.comment
    game_id := f.game_id.getD r.game_id
    user_id := f.user_id.getD r.user_id
    updated_at := some now }

/-- Modelled from the spec: `update(Review, fields)` (§4.1), with the
declared foreign-key constraints checked on any written key. -/
def updateReview (st : Store) (rid : Nat) (f : ReviewUpdate) (now : Nat) :
    Except DbError Store :=
  if st.reviews.any (fun r => decide (r.id = rid)) then
    if (match f.game_id with
        | some fk => !(fkOk (st.games.map Game.id) fk)
        | none => false) ||
       (match f.user_id with
        | some fk => !(fkOk (st.users.map User.id) fk)
        | none => false) then .error .ConstraintViolation
    else .ok { st with reviews := st.reviews.map (fun x =>
      if x.id = rid then applyReviewUpdate x f now else x) }
  else .error .NotFound

/-- Writing into the `Game.users` association proxy (`game.users.append(u)`,
the spec's `addUserToGame`): the proxy's creator
`lambda user_obj: Review(user=user_obj)` builds a fresh review for the
appended user, and appending it to `game.reviews` sets its `game_id`.
There is no find-or-create guard in the source: a new review with null
`score` and null `comment` is added unconditionally, whether or not a
review already links the pair. -/
def addUserToGame (st : Store) (now nid : Nat) (g : Game) (u : User) : Store :=
  { st with reviews := st.reviews ++
    [⟨nid, none, none, some now, none, some g.id, some u.id⟩] }

/-! The seed script (`server/seed.py`). -/

/-- `Review.query.delete(); User.query.delete(); Game.query.delete()`:
empty all three tables. -/
def clearAll (_st : Store) : Store :=
  { games := [], users := [], reviews := [] }

/-- The seed script's final loop:
`for g in games: r = rc(reviews); g.review = r; reviews.remove(r)`.
For each game in order, one review is drawn from the remaining in-memory
list (`picks i` supplies the i-th random draw, reduced modulo the list
length), stored on the game's transient `review` attribute — a plain
Python attribute, `Game` maps no such column — and removed from the
list.  Returns the attribute assignments made, as (game id, review)
pairs; no table is touched. -/
def assignStep (picks : Nat → Nat) : Nat → List Game → List Review →
    List (Nat × Review)
  | _, [], _ => []
  | _, _ :: _, [] => []
  | i, g :: gs, r0 :: rs =>
      let k := picks i % (r0 :: rs).length
      (g.id, (r0 :: rs).getD k r0) ::
        assignStep picks (i + 1) gs ((r0 :: rs).eraseIdx k)

/-- The seed script, run in one app context and committed once: empty the
three tables; add three users with faker-generated names `n1 n2 n3`; add
the three fixed games (Mega Adventure / Golf Pro IV / Dance, dance,
dance); add the four reviews pairing them — the last one's score is
`randint(0, 10)`, supplied as `lastScore`; run the transient-attribute
loop; commit.  Ids model the autoincrement keys assigned at commit and
`now` the commit-time `server_default` clock.  The loop touches no table,
so the committed store is independent of the draws. -/
def seed (st : Store) (now : Nat) (n1 n2 n3 : String) (lastScore : Int)
    (picks : Nat → Nat) : Store × List (Nat × Review) :=
  let cleared := clearAll st
  let u1 : User := ⟨1, some n1, some now, none⟩
  let u2 : User := ⟨2, some n2, some now, none⟩
  let u3 : User := ⟨3, some n3, some now, none⟩
  let mega : Game :=
    ⟨1, some "Mega Adventure", some "Survival", some "XBox", some 30,
     some now, none⟩
  let golf : Game :=
    ⟨2, some "Golf Pro IV", some "Sports", some "PlayStation", some 20,
     some now, none⟩
  let dance : Game :=
    ⟨3, some "Dance, dance, dance", some "Party", some "PlayStation", some 7,
     some now, none⟩
  let r1 : Review :=
    ⟨1, some 9, some "Amazing action", some now, none, some mega.id,
     some u1.id⟩
  let r2 : Review :=
    ⟨2, some 2, some "Boring", some now, none, some golf.id, some u1.id⟩
  let r3 : Review :=
    ⟨3, some 5, some "Not enough levels", some now, none, some mega.id,
     some u2.id⟩
  let r4 : Review :=
    ⟨4, some lastScore, some "confusing instructions", some now, none,
     some dance.id, some u3.id⟩
  let committed : Store :=
    { games := cleared.games ++ [mega, golf, dance],
      users := cleared.users ++ [u1, u2, u3],
      reviews := cleared.reviews ++ [r1, r2, r3, r4] }
  (committed, assignStep picks 0 [mega, golf, dance] [r1, r2, r3, r4])

/-! Helper lemmas on serialized objects. -/

/-- The column names of a serialized game. -/
def gameColumnNames : List String :=
  ["id", "title", "genre", "platform", "price", "created_at", "updated_at"]

/-- The column names of a serialized user. -/
def userColumnNames : List String :=
  ["id", "name", "created_at", "updated_at"]

/-- The column names of a serialized review. -/
def reviewColumnNames : List String :=
  ["id", "score", "comment", "created_at", "updated_at", "game_id", "user_id"]

lemma gameFields_keys (g : Game) :
    (Game.fieldsJson g).map Prod.fst = gameColumnNames := rfl

lemma userFields_keys (u : User) :
    (User.fieldsJson u).map Prod.fst = userColumnNames := rfl

lemma reviewFields_keys (r : Review) :
    (Review.fieldsJson r).map Prod.fst = reviewColumnNames := rfl

/-- A serialized object carries a key exactly when a field bears it. -/
lemma hasKey_obj_iff (fs : List (String × JVal)) (k : String) :
    (JVal.obj fs).hasKey k = true ↔ k ∈ fs.map Prod.fst := by
  simp only [JVal.hasKey, JVal.lookup, Option.isSome_map', List.find?_isSome,
    decide_eq_true_eq, List.mem_map]

lemma hasKey_obj_of_mem (fs : List (String × JVal)) (k : String)
    (h : k ∈ fs.map Prod.fst) : (JVal.obj fs).hasKey k = true :=
  (hasKey_obj_iff fs k).mpr h

lemma hasKey_obj_eq_false (fs : List (String × JVal)) (k : String)
    (h : k ∉ fs.map Prod.fst) : (JVal.obj fs).hasKey k = false :=
  Bool.eq_false_iff.mpr (fun hb => h ((hasKey_obj_iff fs k).mp hb))

/-- Looking up a key skips a field bearing a different name. -/
lemma lookup_obj_cons_ne (a : String × JVal) (fs : List (String × JVal))
    (k : String) (h : ¬ a.fst = k) :
    (JVal.obj (a :: fs)).lookup k = (JVal.obj fs).lookup k := by
  simp only [JVal.lookup]
  rw [List.find?_cons_of_neg]
  simp [h]

/-- Looking up a key absent from a prefix of fields skips the prefix. -/
lemma lookup_obj_append (fs gs : List (String × JVal)) (k : String)
    (h : k ∉ fs.map Prod.fst) :
    (JVal.obj (fs ++ gs)).lookup k = (JVal.obj gs).lookup k := by
  induction fs with
  | nil => rfl
  | cons a as ih =>
      simp only [List.map_cons, List.mem_cons, not_or] at h
      rw [List.cons_append,
        lookup_obj_cons_ne a (as ++ gs) k (fun hc => h.1 hc.symm)]
      exact ih h.2

/-- A review serialized under a game root: all review columns appear, the
`game` back-edge is cut by `-reviews.game`, and the `user` is kept — an
object carrying every user column when the referenced user exists,
`null` otherwise. -/
lemma nested_review_in_game (st : Store) (r : Review) (gid : Nat) (f : Nat) :
    (∀ k ∈ reviewColumnNames,
      (serializeEntity st Game.serialize_rules (f + 1 + 1) ["reviews"]
        [ObjRef.review r.id, ObjRef.game gid] (Entity.review r)).hasKey k
        = true) ∧
    (serializeEntity st Game.serialize_rules (f + 1 + 1) ["reviews"]
      [ObjRef.review r.id, ObjRef.game gid] (Entity.review r)).hasKey "game"
      = false ∧
    ∃ uv,
      (serializeEntity st Game.serialize_rules (f + 1 + 1) ["reviews"]
        [ObjRef.review r.id, ObjRef.game gid] (Entity.review r)).lookup "user"
        = some uv ∧
      (uv = JVal.null ∨ ∀ k ∈ userColumnNames, uv.hasKey k = true) := by
  cases hu : Review.user st r with
  | none =>
      simp [serializeEntity, Game.serialize_rules, hu, JVal.hasKey,
        JVal.lookup, Review.fieldsJson, User.fieldsJson, reviewColumnNames,
        userColumnNames]
  | some u =>
      simp [serializeEntity, Game.serialize_rules, hu, JVal.hasKey,
        JVal.lookup, Review.fieldsJson, User.fieldsJson, reviewColumnNames,
        userColumnNames]

/-- Serializing a game: every game column plus the nested reviews, one
serialized element per review, each omitting `game` and keeping `user`. -/
lemma to_dict_game_part (st : Store) (g : Game) (hg : g ∈ st.games) :
    (∀ k ∈ gameColumnNames, (Game.to_dict st g).hasKey k = true) ∧
    ∃ elems : List JVal,
      (Game.to_dict st g).lookup "reviews" = some (JVal.arr elems) ∧
      elems.length = (Game.reviews st g).length ∧
      ∀ rv ∈ elems,
        (∀ k ∈ reviewColumnNames, rv.hasKey k = true) ∧
        rv.hasKey "game" = false ∧
        ∃ uv, rv.lookup "user" = some uv ∧
          (uv = JVal.null ∨ ∀ k ∈ userColumnNames, uv.hasKey k = true) := by
  simp only [Game.to_dict]
  simp [serializeEntity, Game.serialize_rules, JVal.hasKey,
    JVal.lookup, Game.fieldsJson, gameColumnNames]
  intro r hr
  obtain ⟨f, hf⟩ : ∃ f, st.size = f + 1 + 1 := by
    refine ⟨st.size - 2, ?_⟩
    have h1 : 0 < st.games.length := List.length_pos_of_mem hg
    have h2 : 0 < st.reviews.length :=
      List.length_pos_of_mem (List.mem_of_mem_filter hr)
    simp only [Store.size]
    omega
  rw [hf]
  simpa [Game.serialize_rules, JVal.hasKey, JVal.lookup]
    using nested_review_in_game st r g.id f

/-- A review serialized under a user root: all review columns appear, the
`user` back-edge is cut by `-reviews.user`, and the `game` is kept — an
object carrying every game column when the referenced game exists,
`null` otherwise. -/
lemma nested_review_in_user (st : Store) (r : Review) (uid : Nat) (f : Nat) :
    (∀ k ∈ reviewColumnNames,
      (serializeEntity st User.serialize_rules (f + 1 + 1) ["reviews"]
        [ObjRef.review r.id, ObjRef.user uid] (Entity.review r)).hasKey k
        = true) ∧
    (serializeEntity st User.serialize_rules (f + 1 + 1) ["reviews"]
      [ObjRef.review r.id, ObjRef.user uid] (Entity.review r)).hasKey "user"
      = false ∧
    ∃ gv,
      (serializeEntity st User.serialize_rules (f + 1 + 1) ["reviews"]
        [ObjRef.review r.id, ObjRef.user uid] (Entity.review r)).lookup "game"
        = some gv ∧
      (gv = JVal.null ∨ ∀ k ∈ gameColumnNames, gv.hasKey k = true) := by
  cases hg : Review.game st r with
  | none =>
      simp [serializeEntity, User.serialize_rules, hg, JVal.hasKey,
        JVal.lookup, Review.fieldsJson, Game.fieldsJson, reviewColumnNames,
        gameColumnNames]
  | some g =>
      simp [serializeEntity, User.serialize_rules, hg, JVal.hasKey,
        JVal.lookup, Review.fieldsJson, Game.fieldsJson, reviewColumnNames,
        gameColumnNames]

/-- Serializing a user: every user column plus the nested reviews, one
serialized element per review, each omitting `user` and keeping `game`. -/
lemma to_dict_user_part (st : Store) (u : User) (hu : u ∈ st.users) :
    (∀ k ∈ userColumnNames, (User.to_dict st u).hasKey k = true) ∧
    ∃ elems : List JVal,
      (User.to_dict st u).lookup "reviews" = some (JVal.arr elems) ∧
      elems.length = (User.reviews st u).length ∧
      ∀ rv ∈ elems,
        (∀ k ∈ reviewColumnNames, rv.hasKey k = true) ∧
        rv.hasKey "user" = false ∧
        ∃ gv, rv.lookup "game" = some gv ∧
          (gv = JVal.null ∨ ∀ k ∈ gameColumnNames, gv.hasKey k = true) := by
  simp only [User.to_dict]
  simp [serializeEntity, User.serialize_rules, JVal.hasKey,
    JVal.lookup, User.fieldsJson, userColumnNames]
  intro r hr
  obtain ⟨f, hf⟩ : ∃ f, st.size = f + 1 + 1 := by
    refine ⟨st.size - 2, ?_⟩
    have h1 : 0 < st.users.length := List.length_pos_of_mem hu
    have h2 : 0 < st.reviews.length :=
      List.length_pos_of_mem (List.mem_of_mem_filter hr)
    simp only [Store.size]
    omega
  rw [hf]
  simpa [User.serialize_rules, JVal.hasKey, JVal.lookup]
    using nested_review_in_user st r u.id f

/-- Serializing a review: every review column appears; the nested game
and the nested user are kept (as `null` when the foreign key resolves to
no row), and inside each of them the `reviews` collection is cut by
`-game.reviews` / `-user.reviews`. -/
lemma to_dict_review_part (st : Store) (r : Review) (hr : r ∈ st.reviews) :
    (∀ k ∈ reviewColumnNames, (Review.to_dict st r).hasKey k = true) ∧
    (∃ gv, (Review.to_dict st r).lookup "game" = some gv ∧
      (gv = JVal.null ∨ ((∀ k ∈ gameColumnNames, gv.hasKey k = true) ∧
        gv.hasKey "reviews" = false))) ∧
    (∃ uv, (Review.to_dict st r).lookup "user" = some uv ∧
      (uv = JVal.null ∨ ((∀ k ∈ userColumnNames, uv.hasKey k = true) ∧
        uv.hasKey "reviews" = false))) := by
  obtain ⟨f, hf⟩ : ∃ f, st.size = f + 1 := by
    refine ⟨st.size - 1, ?_⟩
    have h1 : 0 < st.reviews.length := List.length_pos_of_mem hr
    simp only [Store.size]
    omega
  simp only [Review.to_dict]
  rw [hf]
  cases hg : Review.game st r <;> cases hu : Review.user st r <;>
    simp [serializeEntity, Review.serialize_rules, hg, hu, JVal.hasKey,
      JVal.lookup, Review.fieldsJson, Game.fieldsJson, User.fieldsJson,
      reviewColumnNames, gameColumnNames, userColumnNames]

/-! Claim theorems. -/

/-- C1: for every game, review and user, `serialize` produces all own
columns plus nested representations of the directly related rows,
omitting exactly the three declared back-edges and nothing else:
a serialized game's nested reviews omit `game` but still carry `user`
(a full user object when the referent exists); a serialized review
carries its nested game and nested user, each omitting `reviews`; a
serialized user's nested reviews omit `user` but still carry `game`. -/
theorem c1_serialize_omits_only_declared_back_edges (st : Store) :
    (∀ g ∈ st.games,
      (∀ k ∈ gameColumnNames, (Game.to_dict st g).hasKey k = true) ∧
      ∃ elems : List JVal,
        (Game.to_dict st g).lookup "reviews" = some (JVal.arr elems) ∧
        elems.length = (Game.reviews st g).length ∧
        ∀ rv ∈ elems,
          (∀ k ∈ reviewColumnNames, rv.hasKey k = true) ∧
          rv.hasKey "game" = false ∧
          ∃ uv, rv.lookup "user" = some uv ∧
            (uv = JVal.null ∨ ∀ k ∈ userColumnNames, uv.hasKey k = true)) ∧
    (∀ r ∈ st.reviews,
      (∀ k ∈ reviewColumnNames, (Review.to_dict st r).hasKey k = true) ∧
      (∃ gv, (Review.to_dict st r).lookup "game" = some gv ∧
        (gv = JVal.null ∨ ((∀ k ∈ gameColumnNames, gv.hasKey k = true) ∧
          gv.hasKey "reviews" = false))) ∧
      (∃ uv, (Review.to_dict st r).lookup "user" = some uv ∧
        (uv = JVal.null ∨ ((∀ k ∈ userColumnNames, uv.hasKey k = true) ∧
          uv.hasKey "reviews" = false)))) ∧
    (∀ u ∈ st.users,
      (∀ k ∈ userColumnNames, (User.to_dict st u).hasKey k = true) ∧
      ∃ elems : List JVal,
        (User.to_dict st u).lookup "reviews" = some (JVal.arr elems) ∧
        elems.length = (User.reviews st u).length ∧
        ∀ rv ∈ elems,
          (∀ k ∈ reviewColumnNames, rv.hasKey k = true) ∧
          rv.hasKey "user" = false ∧
          ∃ gv, rv.lookup "game" = some gv ∧
            (gv = JVal.null ∨ ∀ k ∈ gameColumnNames, gv.hasKey k = true)) :=
  ⟨fun g hg => to_dict_game_part st g hg,
   fun r hr => to_dict_review_part st r hr,
   fun u hu => to_dict_user_part st u hu⟩

/-- A one-user, one-game, one-review store used to instantiate theorems
with membership hypotheses. -/
def sampleUser : User := ⟨1, some "Alice", some 0, none⟩

/-- The sample game of the one-row store. -/
def sampleGame : Game := ⟨1, some "Chess", none, none, some 10, some 0, none⟩

/-- The sample review of the one-row store, linking the sample game and
the sample user. -/
def sampleReview : Review := ⟨1, some 8, none, some 0, none, some 1, some 1⟩

/-- The one-row store itself. -/
def sampleStore : Store := ⟨[sampleGame], [sampleUser], [sampleReview]⟩

/-- Witness for C1 on the one-row store: its game is live, and its
serialization carries the `title` column. -/
theorem c1_serialize_omits_only_declared_back_edges_witness :
    sampleGame ∈ sampleStore.games ∧
    (Game.to_dict sampleStore sampleGame).hasKey "title" = true :=
  ⟨by decide,
   (((c1_serialize_omits_only_declared_back_edges sampleStore).1
      sampleGame (by decide)).1 "title" (by decide))⟩

/-- Users and game for the duplicate-review store refuting C2. -/
def dupUserA : User := ⟨1, some "A", some 0, none⟩

/-- Second user of the duplicate-review store; reviews the game twice. -/
def dupUserB : User := ⟨2, some "B", some 0, none⟩

/-- The game of the duplicate-review store. -/
def dupGame : Game := ⟨1, some "G", none, none, none, some 0, none⟩

/-- A store where game G has reviews linking it to users A, B and B
again: B reviewed G twice. -/
def dupStore : Store :=
  ⟨[dupGame], [dupUserA, dupUserB],
   [⟨1, some 1, none, some 0, none, some 1, some 1⟩,
    ⟨2, some 2, none, some 0, none, some 1, some 2⟩,
    ⟨3, some 3, none, some 0, none, some 1, some 2⟩]⟩

/-- C2 counterexample: with reviews linking G to users {A, B, B}, the
association proxy yields [A, B, B] — one entry per review, B twice — not
the duplicate-free set {A, B} the claim states. -/
theorem c2_counterexample :
    Game.users dupStore dupGame =
      [some dupUserA, some dupUserB, some dupUserB] ∧
    ¬ (Game.users dupStore dupGame).Nodup := by
  constructor
  · decide
  · decide

/-- C2 (amended): reading the derived `users` view of a game yields the
`user` value of each of the game's reviews, one entry per review in
review order — duplicates preserved, not deduplicated — so its members
are exactly the users appearing across the game's reviews. -/
theorem c2_users_view_projects_review_users (st : Store) (g : Game) :
    (Game.users st g).length = (Game.reviews st g).length ∧
    ∀ ou : Option User,
      ou ∈ Game.users st g ↔ ∃ r ∈ Game.reviews st g, Review.user st r = ou := by
  constructor
  · simp [Game.users]
  · intro ou
    simp [Game.users]

/-- C3 counterexample: a review already links the sample game and sample
user, yet writing the user into the game's `users` proxy is not a no-op —
it appends a second review — and applying the write twice differs from
applying it once. -/
theorem c3_counterexample :
    (∃ r0 ∈ sampleStore.reviews,
      r0.game_id = some sampleGame.id ∧ r0.user_id = some sampleUser.id) ∧
    addUserToGame sampleStore 5 2 sampleGame sampleUser ≠ sampleStore ∧
    (addUserToGame sampleStore 5 2 sampleGame sampleUser).reviews.length = 2 ∧
    addUserToGame (addUserToGame sampleStore 5 2 sampleGame sampleUser) 6 3
        sampleGame sampleUser ≠
      addUserToGame sampleStore 5 2 sampleGame sampleUser := by
  refine ⟨⟨sampleReview, by decide, by decide, by decide⟩,
    by decide, by decide, by decide⟩

/-- C3 (amended): writing a user into a game's derived `users` view
unconditionally creates one fresh review joining them, with `score` and
`comment` left null — there is no existing-review guard — leaves games
and users untouched, and applying the write twice adds two reviews. -/
theorem c3_addUserToGame_always_creates (st : Store) (now nid now2 nid2 : Nat)
    (g : Game) (u : User) :
    (addUserToGame st now nid g u).games = st.games ∧
    (addUserToGame st now nid g u).users = st.users ∧
    (addUserToGame st now nid g u).reviews.length = st.reviews.length + 1 ∧
    (∀ r ∈ (addUserToGame st now nid g u).reviews,
      r ∈ st.reviews ∨
        (r.game_id = some g.id ∧ r.user_id = some u.id ∧
         r.score = none ∧ r.comment = none)) ∧
    (addUserToGame (addUserToGame st now nid g u) now2 nid2 g u).reviews.length
      = st.reviews.length + 2 := by
  refine ⟨rfl, rfl, by simp [addUserToGame], ?_, by simp [addUserToGame]⟩
  intro r hr
  simp only [addUserToGame, List.mem_append, List.mem_singleton] at hr
  rcases hr with h | h
  · exact Or.inl h
  · subst h
    exact Or.inr ⟨rfl, rfl, rfl, rfl⟩

/-- Referential integrity of the present foreign keys: every non-null
`game_id`/`user_id` of a live review references a live row. -/
def Store.fkConsistent (st : Store) : Prop :=
  ∀ r ∈ st.reviews,
    fkOk (st.games.map Game.id) r.game_id = true ∧
    fkOk (st.users.map User.id) r.user_id = true

/-- C4 counterexample: a review with both foreign keys null is accepted —
the create succeeds and inserts the row — although the claim says any
review not referencing both an existing game and an existing user must be
rejected.  The persisted review then references no game and no user. -/
theorem c4_counterexample :
    createReview sampleStore 7 2 none none none none =
      Except.ok (⟨[sampleGame], [sampleUser],
        [sampleReview, ⟨2, none, none, some 7, none, none, none⟩]⟩ : Store) ∧
    (stateAfter sampleStore
      (createReview sampleStore 7 2 none none none none)).reviews.length = 2 := by
  constructor
  · rfl
  · rfl

/-- C4 (amended): a review whose `game_id` or `user_id` is non-null but
references no live row is rejected with `ConstraintViolation` and nothing
is inserted; null foreign keys are accepted (neither column is declared
`nullable=False`), so creates preserve the invariant that every present
foreign key of a persisted review references a live row. -/
theorem c4_dangling_fk_rejected (st : Store) :
    (∀ now nid score comment game_id user_id,
      ((∃ gid, game_id = some gid ∧ gid ∉ st.games.map Game.id) ∨
       (∃ uid, user_id = some uid ∧ uid ∉ st.users.map User.id)) →
      createReview st now nid score comment game_id user_id =
        Except.error DbError.ConstraintViolation ∧
      stateAfter st (createReview st now nid score comment game_id user_id)
        = st) ∧
    (∀ now nid score comment game_id user_id st',
      st.fkConsistent →
      createReview st now nid score comment game_id user_id =
        Except.ok st' →
      st'.fkConsistent) := by
  constructor
  · intro now nid score comment game_id user_id hbad
    have hfail : (fkOk (st.games.map Game.id) game_id &&
        fkOk (st.users.map User.id) user_id) = false := by
      rcases hbad with ⟨gid, hg, hmem⟩ | ⟨uid, hu, hmem⟩
      · simp [hg, fkOk, hmem]
      · simp [hu, fkOk, hmem]
    constructor
    · simp [createReview, hfail]
    · simp [createReview, hfail, stateAfter]
  · intro now nid score comment game_id user_id st' hwf hok
    simp only [createReview] at hok
    by_cases hcheck : (fkOk (st.games.map Game.id) game_id &&
        fkOk (st.users.map User.id) user_id) = true
    · rw [if_pos hcheck] at hok
      injection hok with hok
      subst hok
      intro r hr
      simp only [List.mem_append, List.mem_singleton] at hr
      rcases hr with h | h
      · exact hwf r h
      · subst h
        exact ⟨(Bool.and_eq_true _ _).mp hcheck |>.1,
               (Bool.and_eq_true _ _).mp hcheck |>.2⟩
    · rw [if_neg hcheck] at hok
      exact absurd hok (by simp)

/-- Witness for C4 (amended) on the one-row store: `game_id = 99`
references no game, so the create is rejected. -/
theorem c4_dangling_fk_rejected_witness :
    ((∃ gid, (some 99 : Option Nat) = some gid ∧
        gid ∉ sampleStore.games.map Game.id) ∨
     (∃ uid, (none : Option Nat) = some uid ∧
        uid ∉ sampleStore.users.map User.id)) ∧
    createReview sampleStore 0 2 none none (some 99) none =
      Except.error DbError.ConstraintViolation :=
  ⟨Or.inl ⟨99, rfl, by decide⟩,
   ((c4_dangling_fk_rejected sampleStore).1 0 2 none none (some 99) none
     (Or.inl ⟨99, rfl, by decide⟩)).1⟩

/-- Uniqueness of present titles across live games: two live games
bearing the same non-null title are the same row. -/
def Store.titlesUnique (st : Store) : Prop :=
  ∀ g1 ∈ st.games, ∀ g2 ∈ st.games, ∀ t : String,
    g1.title = some t → g2.title = some t → g1 = g2

/-- C5: creating a second game with the same (present) title as an
already-created game fails with `ConstraintViolation`, the failed create
leaves the store unchanged, and successful creates preserve title
uniqueness across live games. -/
theorem c5_duplicate_title_rejected (st : Store) :
    (∀ st1 now1 nid1 now2 nid2 (ng1 ng2 : NewGame) (t : String),
      ng1.title = some t → ng2.title = some t →
      createGame st now1 nid1 ng1 = Except.ok st1 →
      createGame st1 now2 nid2 ng2 =
        Except.error DbError.ConstraintViolation ∧
      stateAfter st1 (createGame st1 now2 nid2 ng2) = st1) ∧
    (∀ now nid ng st', st.titlesUnique →
      createGame st now nid ng = Except.ok st' → st'.titlesUnique) := by
  constructor
  · intro st1 now1 nid1 now2 nid2 ng1 ng2 t h1 h2 hok
    simp only [createGame, h1] at hok
    by_cases hc : titleClash st (some t) = true
    · rw [if_pos hc] at hok
      exact absurd hok (by simp)
    · rw [if_neg hc] at hok
      injection hok with hok
      have hclash : titleClash st1 ng2.title = true := by
        subst hok
        simp [h2, titleClash, List.any_append]
      constructor
      · simp [createGame, hclash]
      · simp [createGame, hclash, stateAfter]
  · intro now nid ng st' hwf hok
    simp only [createGame] at hok
    by_cases hc : titleClash st ng.title = true
    · rw [if_pos hc] at hok
      exact absurd hok (by simp)
    · rw [if_neg hc] at hok
      injection hok with hok
      subst hok
      intro g1 hg1 g2 hg2 t ht1 ht2
      simp only [List.mem_append, List.mem_singleton] at hg1 hg2
      rcases hg1 with hg1 | rfl <;> rcases hg2 with hg2 | rfl
      · exact hwf g1 hg1 g2 hg2 t ht1 ht2
      · exfalso
        apply hc
        have hng : ng.title = some t := ht2
        rw [hng]
        simp only [titleClash, List.any_eq_true, decide_eq_true_eq]
        exact ⟨g1, hg1, ht1⟩
      · exfalso
        apply hc
        have hng : ng.title = some t := ht1
        rw [hng]
        simp only [titleClash, List.any_eq_true, decide_eq_true_eq]
        exact ⟨g2, hg2, ht2⟩
      · rfl

/-- The game fields used by the C5 witness. -/
def c5fields : NewGame := ⟨some "Asteroids", none, none, none⟩

/-- The store holding the first "Asteroids" game. -/
def c5store1 : Store :=
  ⟨[⟨1, some "Asteroids", none, none, none, some 0, none⟩], [], []⟩

/-- Witness for C5: after creating "Asteroids" in an empty store, a
second create with the same title is rejected. -/
theorem c5_duplicate_title_rejected_witness :
    c5fields.title = some "Asteroids" ∧
    createGame (⟨[], [], []⟩ : Store) 0 1 c5fields = Except.ok c5store1 ∧
    createGame c5store1 0 2 c5fields =
      Except.error DbError.ConstraintViolation :=
  ⟨rfl, rfl,
   ((c5_duplicate_title_rejected (⟨[], [], []⟩ : Store)).1 c5store1 0 1 0 2
     c5fields c5fields "Asteroids" rfl rfl rfl).1⟩

/-- The timestamp relation of C6 between a pre-update row's timestamps
and the post-update row's: `created_at` is unchanged and `updated_at`
never moves backwards when the clock `now` is at or past it. -/
def timestampsOk (created created' up up' : Option Nat) (now : Nat) : Prop :=
  created' = created ∧
  ∀ t t', up = some t → t ≤ now → up' = some t' → t ≤ t'

/-- C6: every update of a game, review or user leaves each row's
`created_at` unchanged (the column has no `onupdate` option) and
refreshes the touched row's `updated_at` to the clock, so with a
monotone clock `updated_at` never decreases. -/
theorem c6_update_refreshes_updated_at_only (st : Store) (now : Nat) :
    (∀ gid f st', updateGame st gid f now = Except.ok st' →
      List.Forall₂ (fun g g' : Game =>
          timestampsOk g.created_at g'.created_at g.updated_at g'.updated_at
            now)
        st.games st'.games ∧
      ∀ g' ∈ st'.games, g'.id = gid → g'.updated_at = some now) ∧
    (∀ rid f st', updateReview st rid f now = Except.ok st' →
      List.Forall₂ (fun r r' : Review =>
          timestampsOk r.created_at r'.created_at r.updated_at r'.updated_at
            now)
        st.reviews st'.reviews ∧
      ∀ r' ∈ st'.reviews, r'.id = rid → r'.updated_at = some now) ∧
    (∀ uid f st', updateUser st uid f now = Except.ok st' →
      List.Forall₂ (fun u u' : User =>
          timestampsOk u.created_at u'.created_at u.updated_at u'.updated_at
            now)
        st.users st'.users ∧
      ∀ u' ∈ st'.users, u'.id = uid → u'.updated_at = some now) := by
  refine ⟨?_, ?_, ?_⟩
  · intro gid f st' hok
    simp only [updateGame] at hok
    split_ifs at hok
    injection hok with hok
    subst hok
    constructor
    · rw [List.forall₂_map_right_iff]
      rw [List.forall₂_same]
      intro g _
      by_cases hid : g.id = gid
      · simp only [if_pos hid, applyGameUpdate, timestampsOk]
        exact ⟨by simp, fun t t' _ hle ht' => by
          injection ht' with ht'
          omega⟩
      · simp only [if_neg hid, timestampsOk]
        exact ⟨by simp, fun t t' ht _ ht' => by
          rw [ht] at ht'
          injection ht' with ht'
          omega⟩
    · intro g' hg' hid
      obtain ⟨g, _, rfl⟩ := List.mem_map.1 hg'
      by_cases h : g.id = gid
      · simp [if_pos h, applyGameUpdate]
      · rw [if_neg h] at hid ⊢
        exact absurd hid h
  · intro rid f st' hok
    simp only [updateReview] at hok
    split_ifs at hok
    injection hok with hok
    subst hok
    constructor
    · rw [List.forall₂_map_right_iff]
      rw [List.forall₂_same]
      intro r _
      by_cases hid : r.id = rid
      · simp only [if_pos hid, applyReviewUpdate, timestampsOk]
        exact ⟨by simp, fun t t' _ hle ht' => by
          injection ht' with ht'
          omega⟩
      · simp only [if_neg hid, timestampsOk]
        exact ⟨by simp, fun t t' ht _ ht' => by
          rw [ht] at ht'
          injection ht' with ht'
          omega⟩
    · intro r' hr' hid
      obtain ⟨r, _, rfl⟩ := List.mem_map.1 hr'
      by_cases h : r.id = rid
      · simp [if_pos h, applyReviewUpdate]
      · rw [if_neg h] at hid ⊢
        exact absurd hid h
  · intro uid f st' hok
    simp only [updateUser] at hok
    split_ifs at hok
    injection hok with hok
    subst hok
    constructor
    · rw [List.forall₂_map_right_iff]
      rw [List.forall₂_same]
      intro u _
      by_cases hid : u.id = uid
      · simp only [if_pos hid, applyUserUpdate, timestampsOk]
        exact ⟨by simp, fun t t' _ hle ht' => by
          injection ht' with ht'
          omega⟩
      · simp only [if_neg hid, timestampsOk]
        exact ⟨by simp, fun t t' ht _ ht' => by
          rw [ht] at ht'
          injection ht' with ht'
          omega⟩
    · intro u' hu' hid
      obtain ⟨u, _, rfl⟩ := List.mem_map.1 hu'
      by_cases h : u.id = uid
      · simp [if_pos h, applyUserUpdate]
      · rw [if_neg h] at hid ⊢
        exact absurd hid h

/-- The store produced by the C6 witness update: the sample game renamed,
its `updated_at` stamped with the clock 5. -/
def c6store : Store :=
  ⟨[⟨1, some "Chess II", none, none, some 10, some 0, some 5⟩],
   [sampleUser], [sampleReview]⟩

/-- Witness for C6: renaming the sample game succeeds, and the update
leaves `created_at` alone while stamping `updated_at`. -/
theorem c6_update_refreshes_updated_at_only_witness :
    updateGame sampleStore 1 ⟨some (some "Chess II"), none, none, none⟩ 5 =
      Except.ok c6store ∧
    List.Forall₂ (fun g g' : Game =>
        timestampsOk g.created_at g'.created_at g.updated_at g'.updated_at 5)
      sampleStore.games c6store.games :=
  ⟨rfl,
   ((c6_update_refreshes_updated_at_only sampleStore 5).1 1
     ⟨some (some "Chess II"), none, none, none⟩ c6store rfl).1⟩

/-- C7: for every starting state, the seed routine fully reseeds — the
committed store is independent of the prior state — and persists exactly
3 users with the supplied names, the 3 fixed games, and 4 reviews with
the stated game/user pairing and scores, all scores lying in [0, 10]. -/
theorem c7_seed_full_reseed (st : Store) (now : Nat) (n1 n2 n3 : String)
    (ls : Int) (picks : Nat → Nat) (h0 : 0 ≤ ls) (h10 : ls ≤ 10) :
    (seed st now n1 n2 n3 ls picks).1 =
      (seed (⟨[], [], []⟩ : Store) now n1 n2 n3 ls picks).1 ∧
    ((seed st now n1 n2 n3 ls picks).1).users.map User.name =
      [some n1, some n2, some n3] ∧
    ((seed st now n1 n2 n3 ls picks).1).games =
      [⟨1, some "Mega Adventure", some "Survival", some "XBox", some 30,
        some now, none⟩,
       ⟨2, some "Golf Pro IV", some "Sports", some "PlayStation", some 20,
        some now, none⟩,
       ⟨3, some "Dance, dance, dance", some "Party", some "PlayStation",
        some 7, some now, none⟩] ∧
    ((seed st now n1 n2 n3 ls picks).1).reviews.map
        (fun r => (r.game_id, r.user_id, r.score)) =
      [(some 1, some 1, some 9), (some 2, some 1, some 2),
       (some 1, some 2, some 5), (some 3, some 3, some ls)] ∧
    ((seed st now n1 n2 n3 ls picks).1).users.length = 3 ∧
    ((seed st now n1 n2 n3 ls picks).1).games.length = 3 ∧
    ((seed st now n1 n2 n3 ls picks).1).reviews.length = 4 ∧
    ∀ r ∈ ((seed st now n1 n2 n3 ls picks).1).reviews,
      ∃ v, r.score = some v ∧ 0 ≤ v ∧ v ≤ 10 := by
  refine ⟨rfl, rfl, rfl, rfl, rfl, rfl, rfl, ?_⟩
  intro r hr
  simp only [seed, clearAll, List.nil_append, List.mem_cons,
    List.not_mem_nil, or_false] at hr
  rcases hr with rfl | rfl | rfl | rfl
  · exact ⟨9, rfl, by omega, by omega⟩
  · exact ⟨2, rfl, by omega, by omega⟩
  · exact ⟨5, rfl, by omega, by omega⟩
  · exact ⟨ls, rfl, h0, h10⟩

/-- Witness for C7: a concrete seeding run over the one-row store with
last score 7 persists four reviews. -/
theorem c7_seed_full_reseed_witness :
    ((0 : Int) ≤ 7 ∧ (7 : Int) ≤ 10) ∧
    ((seed sampleStore 0 "a" "b" "c" 7 (fun _ => 0)).1).reviews.length = 4 :=
  ⟨⟨by decide, by decide⟩,
   (c7_seed_full_reseed sampleStore 0 "a" "b" "c" 7 (fun _ => 0)
     (by decide) (by decide)).2.2.2.2.2.2.1⟩

/-- The assignment loop makes exactly one assignment per game whenever at
least as many reviews as games remain. -/
lemma assignStep_length (picks : Nat → Nat) :
    ∀ (gs : List Game) (i : Nat) (revs : List Review),
      gs.length ≤ revs.length →
      (assignStep picks i gs revs).length = gs.length := by
  intro gs
  induction gs with
  | nil => intro i revs _; rfl
  | cons g gs ih =>
      intro i revs hlen
      cases revs with
      | nil => simp at hlen
      | cons r0 rs =>
          have hk : picks i % (rs.length + 1) < (r0 :: rs).length :=
            Nat.mod_lt _ (by simp)
          have hlen' : gs.length ≤
              ((r0 :: rs).eraseIdx (picks i % (rs.length + 1))).length := by
            rw [List.length_eraseIdx_of_lt hk]
            simp only [List.length_cons] at hlen ⊢
            omega
          simp only [assignStep, List.length_cons, ih (i + 1) _ hlen']

/-- The games assigned to by the loop are exactly the given games, in
order. -/
lemma assignStep_fst (picks : Nat → Nat) :
    ∀ (gs : List Game) (i : Nat) (revs : List Review),
      gs.length ≤ revs.length →
      (assignStep picks i gs revs).map Prod.fst = gs.map Game.id := by
  intro gs
  induction gs with
  | nil => intro i revs _; rfl
  | cons g gs ih =>
      intro i revs hlen
      cases revs with
      | nil => simp at hlen
      | cons r0 rs =>
          have hk : picks i % (rs.length + 1) < (r0 :: rs).length :=
            Nat.mod_lt _ (by simp)
          have hlen' : gs.length ≤
              ((r0 :: rs).eraseIdx (picks i % (rs.length + 1))).length := by
            rw [List.length_eraseIdx_of_lt hk]
            simp only [List.length_cons] at hlen ⊢
            omega
          simp only [assignStep, List.map_cons]
          exact congrArg (List.cons g.id) (ih (i + 1) _ hlen')

/-- Every review assigned by the loop comes from the given in-memory
list. -/
lemma assignStep_mem_snd (picks : Nat → Nat) :
    ∀ (gs : List Game) (i : Nat) (revs : List Review),
      ∀ p ∈ assignStep picks i gs revs, p.2 ∈ revs := by
  intro gs
  induction gs with
  | nil => intro i revs p hp; simp [assignStep] at hp
  | cons g gs ih =>
      intro i revs p hp
      cases revs with
      | nil => simp [assignStep] at hp
      | cons r0 rs =>
          have hk : picks i % (r0 :: rs).length < (r0 :: rs).length :=
            Nat.mod_lt _ (by simp)
          simp only [assignStep, List.mem_cons] at hp
          rcases hp with rfl | hp
          · rw [List.getD_eq_getElem (r0 :: rs) r0 hk]
            exact List.getElem_mem hk
          · exact List.eraseIdx_subset _ _ (ih (i + 1) _ p hp)

/-- The review handed to the third game in the C8 counterexample run. -/
def c8row : Review :=
  ⟨3, some 5, some "Not enough levels", some 0, none, some 1, some 2⟩

/-- C8 counterexample: with the random draws picking index 0 each time,
the seed script's final loop makes three transient assignments — one per
game, not exactly one review in total — and the third game (id 3)
receives a review whose `game_id` references game 1, not the game it is
assigned to. -/
theorem c8_counterexample :
    ((seed (⟨[], [], []⟩ : Store) 0 "a" "b" "c" 5 (fun _ => 0)).2).length
      = 3 ∧
    (3, c8row) ∈
      (seed (⟨[], [], []⟩ : Store) 0 "a" "b" "c" 5 (fun _ => 0)).2 ∧
    c8row.game_id ≠ some 3 := by
  refine ⟨rfl, by decide, by decide⟩

/-- C8 (amended): the seed script's final loop assigns to each of the
three games, in order, one review drawn without replacement from the
in-memory list — three transient assignments in total, every drawn
review one of the four built reviews, not necessarily the one whose
`game_id` references the receiving game — and the loop changes nothing
persisted: the committed reviews carry exactly the game/user pairing set
when they were built. -/
theorem c8_assignment_loop_is_transient (st : Store) (now : Nat)
    (n1 n2 n3 : String) (ls : Int) (picks : Nat → Nat) :
    ((seed st now n1 n2 n3 ls picks).2).length = 3 ∧
    ((seed st now n1 n2 n3 ls picks).2).map Prod.fst =
      ((seed st now n1 n2 n3 ls picks).1).games.map Game.id ∧
    (∀ p ∈ (seed st now n1 n2 n3 ls picks).2,
      p.2 ∈ ((seed st now n1 n2 n3 ls picks).1).reviews) ∧
    ((seed st now n1 n2 n3 ls picks).1).reviews.map
        (fun r => (r.game_id, r.user_id)) =
      [(some 1, some 1), (some 2, some 1), (some 1, some 2),
       (some 3, some 3)] := by
  refine ⟨?_, ?_, ?_, rfl⟩
  · exact assignStep_length picks _ 0 _ (by simp)
  · exact assignStep_fst picks _ 0 _ (by simp)
  · intro p hp
    exact assignStep_mem_snd picks _ 0 _ p hp

/-- C9: the title uniqueness rule constrains only present titles — a
game can be created with no title, and two distinct live games with null
titles coexist, both creates succeeding. -/
theorem c9_null_titles_coexist :
    ∃ st1 st2 : Store,
      createGame (⟨[], [], []⟩ : Store) 0 1 ⟨none, none, none, none⟩ =
        Except.ok st1 ∧
      createGame st1 0 2 ⟨none, none, none, none⟩ = Except.ok st2 ∧
      st2.games.length = 2 ∧
      st2.games.Nodup ∧
      ∀ g ∈ st2.games, g.title = none := by
  refine ⟨_, _, rfl, rfl, rfl, by decide, by decide⟩

/-- C10: a freshly created game, review or user has `created_at`
assigned to the creation clock (`server_default=db.func.now()`) and
`updated_at` null — the column has only `onupdate`, no default, so it
first receives a value on the record's first mutating write. -/
theorem c10_fresh_records_have_null_updated_at :
    (∀ st now nid ng st', createGame st now nid ng = Except.ok st' →
      ∃ g : Game, st'.games = st.games ++ [g] ∧
        g.created_at = some now ∧ g.updated_at = none) ∧
    (∀ st now nid name st', createUser st now nid name = Except.ok st' →
      ∃ u : User, st'.users = st.users ++ [u] ∧
        u.created_at = some now ∧ u.updated_at = none) ∧
    (∀ st now nid score comment game_id user_id st',
      createReview st now nid score comment game_id user_id =
        Except.ok st' →
      ∃ r : Review, st'.reviews = st.reviews ++ [r] ∧
        r.created_at = some now ∧ r.updated_at = none) := by
  refine ⟨?_, ?_, ?_⟩
  · intro st now nid ng st' hok
    simp only [createGame] at hok
    split_ifs at hok
    injection hok with hok
    subst hok
    exact ⟨_, rfl, rfl, rfl⟩
  · intro st now nid name st' hok
    simp only [createUser] at hok
    injection hok with hok
    subst hok
    exact ⟨_, rfl, rfl, rfl⟩
  · intro st now nid score comment game_id user_id st' hok
    simp only [createReview] at hok
    split_ifs at hok
    injection hok with hok
    subst hok
    exact ⟨_, rfl, rfl, rfl⟩

/-- Witness for C10: creating a game "Go" in the one-row store yields a
fresh row with `created_at = 3` and `updated_at` null. -/
theorem c10_fresh_records_have_null_updated_at_witness :
    createGame sampleStore 3 2 ⟨some "Go", none, none, none⟩ =
      Except.ok (⟨[sampleGame, ⟨2, some "Go", none, none, none, some 3,
        none⟩], [sampleUser], [sampleReview]⟩ : Store) ∧
    ∃ g : Game,
      (⟨[sampleGame, ⟨2, some "Go", none, none, none, some 3, none⟩],
        [sampleUser], [sampleReview]⟩ : Store).games =
        sampleStore.games ++ [g] ∧
      g.created_at = some 3 ∧ g.updated_at = none :=
  ⟨rfl,
   (c10_fresh_records_have_null_updated_at).1 sampleStore 3 2
     ⟨some "Go", none, none, none⟩ _ rfl⟩

end GameStore
